import Mathlib

/-!
Shallow embedding of the scira repository's verifiable kernels:

* the weighted round-robin read-replica selector of the database bootstrap
  file (`selectReplica`, `getReadReplica`);
* the TTL-based in-memory user-data cache and the comprehensive /
  lightweight user-data computations (`getCachedUserData`,
  `setCachedUserData`, `getComprehensiveUserData`, `getLightweightUserAuth`);
* the Pro-status derivation from subscription rows
  (`getComprehensiveProStatus`, `isUserSubscribed`);
* the Reddit search tool (`redditSearchTool`), its input schema and its
  per-query error handling;
* the trending-movies tool's reshaping of the TVMaze schedule response
  (`trendingMoviesTool`);
* the student-email detector (`isStudentEmail`).

JavaScript `Map`s are modelled as insertion-ordered association lists,
`Date.now()` as an explicit `now : Nat` parameter (milliseconds), thrown
exceptions as `Except`/`Option`, and the module-level mutable selector
state as an explicit `ReplicaState` value threaded through calls.
-/

/-! ## Weighted round-robin replica selector (src db bootstrap file) -/

/-- The module-level mutable state of the selector:
`let currentIndex = -1; let currentWeight = 0;`. -/
structure ReplicaState where
  currentIndex : Int
  currentWeight : Int
deriving DecidableEq, Repr

/-- Structural-fuel helper for `gcdJs`; the third argument never exceeds
the fuel, so the `0, a, b+1` fallback is unreachable. -/
def gcdJsAux : Nat → Nat → Nat → Nat
  | _, a, 0 => a
  | 0, a, _ + 1 => a
  | fuel + 1, a, b + 1 => gcdJsAux fuel (b + 1) (a % (b + 1))

/-- Source: `const gcd = (a, b) => (b === 0 ? a : gcd(b, a % b));` (on the
non-negative integer weights, where the JS `%` agrees with `Nat.mod`).
The JS recursion terminates because the second argument strictly
decreases; fuel `b` makes that structural. -/
def gcdJs (a b : Nat) : Nat := gcdJsAux b a b

/-- Source: `const REPLICA_WEIGHTS = [4, 6];` -/
def REPLICA_WEIGHTS : List Nat := [4, 6]

/-- Source: `const MAX_WEIGHT = Math.max(...REPLICA_WEIGHTS);` -/
def MAX_WEIGHT : Nat :=
  match REPLICA_WEIGHTS with
  | [] => 0
  | w :: ws => ws.foldl Nat.max w

/-- Source: `const WEIGHT_GCD = REPLICA_WEIGHTS.reduce(gcd);` -/
def WEIGHT_GCD : Nat :=
  match REPLICA_WEIGHTS with
  | [] => 0
  | w :: ws => ws.foldl gcdJs w

/-- One iteration of the `while (true)` loop body of `selectReplica`:

```
currentIndex = (currentIndex + 1) % replicas.length;
if (currentIndex === 0) {
  currentWeight -= WEIGHT_GCD;
  if (currentWeight <= 0) { currentWeight = MAX_WEIGHT; }
}
if (weights[currentIndex] >= currentWeight) { return replicas[currentIndex]!; }
```

The result is `(some r, s')` when the loop returns the element `r` and
`(none, s')` when it continues with state `s'`.  JS `%` on numbers is the
truncated remainder, i.e. `Int.tmod`; an out-of-range `weights[currentIndex]`
is `undefined`, and `undefined >= currentWeight` is `false`.  When the
weight lookup succeeds the index is also within `replicas`, because
`weights = REPLICA_WEIGHTS.slice(0, replicas.length)` is no longer than
`replicas`. -/
def selectStep {α : Type} (replicas : List α) (s : ReplicaState) :
    Option α × ReplicaState :=
  let ci : Int := (s.currentIndex + 1).tmod (replicas.length : Int)
  let cw : Int :=
    if ci = 0 then
      if s.currentWeight - (WEIGHT_GCD : Int) ≤ 0 then (MAX_WEIGHT : Int)
      else s.currentWeight - (WEIGHT_GCD : Int)
    else s.currentWeight
  let s' : ReplicaState := ⟨ci, cw⟩
  match (REPLICA_WEIGHTS.take replicas.length)[ci.toNat]? with
  | some w => if (w : Int) ≥ cw then (replicas[ci.toNat]?, s') else (none, s')
  | none => (none, s')

/-- The `while (true)` loop of `selectReplica`, run with explicit fuel
(the termination claim shows the fuel below is never exhausted). -/
def selectLoop {α : Type} (replicas : List α) : Nat → ReplicaState → Option (α × ReplicaState)
  | 0, _ => none
  | fuel + 1, s =>
    match selectStep replicas s with
    | (some r, s') => some (r, s')
    | (none, s') => selectLoop replicas fuel s'

/-- Fuel supplied to the loop; two iterations always suffice for the
configured weights, four leaves headroom. -/
def selectFuel : Nat := 4

/-- Source: `function selectReplica<T>(replicas: readonly T[]): T` — the empty-list
guard throws `'No replicas configured'`; otherwise the loop runs on the
module state and returns the selected element together with the updated
state. -/
def selectReplica {α : Type} (replicas : List α) (s : ReplicaState) :
    Except String (α × ReplicaState) :=
  if replicas.length = 0 then .error "No replicas configured"
  else
    match selectLoop replicas selectFuel s with
    | some rs => .ok rs
    | none => .error "loop exceeded fuel"

/-- The initial module state. -/
def initialReplicaState : ReplicaState := ⟨-1, 0⟩

/-- The two-replica list `db.$replicas = [dbread1, dbread2]`, identified by
index. -/
def twoReplicas : List Nat := [0, 1]

/-- The selector state after `k` completed calls to
`selectReplica(db.$replicas)` from the initial module state. -/
def replicaStateAfter : Nat → Option ReplicaState
  | 0 => some initialReplicaState
  | k + 1 =>
    (replicaStateAfter k).bind fun s =>
      (selectReplica twoReplicas s).toOption.map Prod.snd

/-- The replica index returned by call number `k` (0-based) to
`selectReplica(db.$replicas)`. -/
def replicaPick (k : Nat) : Option Nat :=
  (replicaStateAfter k).bind fun s =>
    (selectReplica twoReplicas s).toOption.map Prod.fst

lemma replicaStateAfter_period (k : Nat) :
    replicaStateAfter (k + 6) = replicaStateAfter (k + 1) := by
  induction k with
  | zero => decide
  | succ n ih =>
      show (replicaStateAfter (n + 6)).bind _ = (replicaStateAfter (n + 1)).bind _
      rw [ih]

lemma replicaPick_period (k : Nat) : replicaPick (k + 5) = replicaPick k := by
  cases k with
  | zero => decide
  | succ n =>
      show (replicaStateAfter (n + 6)).bind _ = (replicaStateAfter (n + 1)).bind _
      rw [replicaStateAfter_period n]

lemma replicaPick_mod (k : Nat) : replicaPick k = replicaPick (k % 5) := by
  induction k using Nat.strong_induction_on with
  | _ k ih =>
      by_cases h : k < 5
      · rw [Nat.mod_eq_of_lt h]
      · have h5 : 5 ≤ k := Nat.le_of_not_lt h
        have hk : k = (k - 5) + 5 := by omega
        rw [hk, replicaPick_period (k - 5), ih (k - 5) (by omega)]
        congr 1
        omega

lemma replicaPick_pattern (k : Nat) :
    replicaPick k = [1, 0, 1, 0, 1][k % 5]? := by
  rw [replicaPick_mod k]
  have h5 : k % 5 < 5 := by omega
  set r := k % 5 with hr
  interval_cases r <;> decide

/-- C1: From the initial module state, `selectReplica` on the
two-element replica list with weights `[4, 6]` implements weighted
round-robin: call `k` returns the replica index given by the repeating
pattern `[1, 0, 1, 0, 1]`, and in every window of 5 consecutive calls
replica 0 is returned exactly 2 times and replica 1 exactly 3 times. -/
theorem selectReplica_weighted_round_robin :
    (∀ k : Nat, replicaPick k = [1, 0, 1, 0, 1][k % 5]?) ∧
    (∀ k : Nat,
      ([replicaPick k, replicaPick (k + 1), replicaPick (k + 2),
        replicaPick (k + 3), replicaPick (k + 4)].count (some 0) = 2 ∧
       [replicaPick k, replicaPick (k + 1), replicaPick (k + 2),
        replicaPick (k + 3), replicaPick (k + 4)].count (some 1) = 3)) := by
  refine ⟨replicaPick_pattern, fun k => ?_⟩
  have h : ∀ j : Nat, replicaPick (k + j) = replicaPick ((k % 5 + j) % 5) := by
    intro j
    rw [replicaPick_mod (k + j)]
    congr 1
    omega
  have h0 : replicaPick k = replicaPick ((k % 5 + 0) % 5) := by
    simpa using h 0
  rw [h0, h 1, h 2, h 3, h 4]
  have h5 : k % 5 < 5 := by omega
  set r := k % 5 with hr
  interval_cases r <;> exact ⟨by decide, by decide⟩

lemma WEIGHT_GCD_eq : WEIGHT_GCD = 2 := rfl

lemma MAX_WEIGHT_eq : MAX_WEIGHT = 6 := rfl

lemma selectLoop_one {α : Type} (a : α) (s : ReplicaState)
    (hci : -1 ≤ s.currentIndex) (hcw : s.currentWeight ≤ 6) :
    ∃ s', selectLoop [a] selectFuel s = some (a, s') ∧
      -1 ≤ s'.currentIndex ∧ s'.currentWeight ≤ 6 := by
  have htm : (s.currentIndex + 1).tmod (1 : Int) = 0 := by
    rw [Int.tmod_eq_emod (by omega) (by norm_num)]
    omega
  by_cases hw : s.currentWeight - 2 ≤ 0
  · -- weight resets to 6, the guard fails, and the next iteration returns
    have hstep : selectStep [a] s = (none, ⟨0, 6⟩) := by
      simp [selectStep, htm, REPLICA_WEIGHTS, WEIGHT_GCD_eq, MAX_WEIGHT_eq, hw]
    have hstep2 : selectStep [a] (⟨0, 6⟩ : ReplicaState) = (some a, ⟨0, 4⟩) := by
      have htm2 : (1 : Int).tmod (1 : Int) = 0 := by decide
      simp [selectStep, htm2, REPLICA_WEIGHTS, WEIGHT_GCD_eq, MAX_WEIGHT_eq]
    have e1 : selectLoop [a] selectFuel s = selectLoop [a] 3 ⟨0, 6⟩ := by
      show (match selectStep [a] s with
        | (some r, s') => some (r, s')
        | (none, s') => selectLoop [a] 3 s') = selectLoop [a] 3 (⟨0, 6⟩ : ReplicaState)
      rw [hstep]
    have e2 : selectLoop [a] 3 (⟨0, 6⟩ : ReplicaState) = some (a, ⟨0, 4⟩) := by
      show (match selectStep [a] (⟨0, 6⟩ : ReplicaState) with
        | (some r, s') => some (r, s')
        | (none, s') => selectLoop [a] 2 s') = some (a, (⟨0, 4⟩ : ReplicaState))
      rw [hstep2]
    exact ⟨⟨0, 4⟩, e1.trans e2, by norm_num, by norm_num⟩
  · -- the decremented weight is at most 4, so index 0 is returned at once
    have hguard : s.currentWeight - 2 ≤ 4 := by omega
    have hstep : selectStep [a] s = (some a, ⟨0, s.currentWeight - 2⟩) := by
      simp [selectStep, htm, REPLICA_WEIGHTS, WEIGHT_GCD_eq, MAX_WEIGHT_eq, hw, hguard]
    have e1 : selectLoop [a] selectFuel s = some (a, ⟨0, s.currentWeight - 2⟩) := by
      show (match selectStep [a] s with
        | (some r, s') => some (r, s')
        | (none, s') => selectLoop [a] 3 s')
        = some (a, (⟨0, s.currentWeight - 2⟩ : ReplicaState))
      rw [hstep]
    exact ⟨⟨0, s.currentWeight - 2⟩, e1, by norm_num,
      by show s.currentWeight - 2 ≤ (6 : Int); omega⟩

lemma selectLoop_two {α : Type} (a b : α) (s : ReplicaState)
    (hci : -1 ≤ s.currentIndex) (hcw : s.currentWeight ≤ 6) :
    ∃ r s', selectLoop [a, b] selectFuel s = some (r, s') ∧ (r = a ∨ r = b) ∧
      -1 ≤ s'.currentIndex ∧ s'.currentWeight ≤ 6 := by
  have htm : (s.currentIndex + 1).tmod (2 : Int) = (s.currentIndex + 1) % 2 :=
    Int.tmod_eq_emod (by omega) (by norm_num)
  have h01 : (s.currentIndex + 1) % (2 : Int) = 0 ∨
      (s.currentIndex + 1) % (2 : Int) = 1 := by omega
  rcases h01 with h | h
  · by_cases hw : s.currentWeight - 2 ≤ 0
    · -- weight resets to 6 at index 0; the guard fails there but the next
      -- iteration returns index 1, whose weight is the maximum
      have hstep : selectStep [a, b] s = (none, ⟨0, 6⟩) := by
        simp [selectStep, htm, h, REPLICA_WEIGHTS, WEIGHT_GCD_eq, MAX_WEIGHT_eq, hw]
      have hstep2 : selectStep [a, b] (⟨0, 6⟩ : ReplicaState) = (some b, ⟨1, 6⟩) := by
        have htm2 : (1 : Int).tmod (2 : Int) = 1 := by decide
        simp [selectStep, htm2, REPLICA_WEIGHTS, WEIGHT_GCD_eq, MAX_WEIGHT_eq]
      have e1 : selectLoop [a, b] selectFuel s = selectLoop [a, b] 3 ⟨0, 6⟩ := by
        show (match selectStep [a, b] s with
          | (some r, s') => some (r, s')
          | (none, s') => selectLoop [a, b] 3 s')
          = selectLoop [a, b] 3 (⟨0, 6⟩ : ReplicaState)
        rw [hstep]
      have e2 : selectLoop [a, b] 3 (⟨0, 6⟩ : ReplicaState) = some (b, ⟨1, 6⟩) := by
        show (match selectStep [a, b] (⟨0, 6⟩ : ReplicaState) with
          | (some r, s') => some (r, s')
          | (none, s') => selectLoop [a, b] 2 s') = some (b, (⟨1, 6⟩ : ReplicaState))
        rw [hstep2]
      exact ⟨b, ⟨1, 6⟩, e1.trans e2, Or.inr rfl, by norm_num, by norm_num⟩
    · -- the decremented weight is at most 4, so index 0 is returned at once
      have hguard : s.currentWeight - 2 ≤ 4 := by omega
      have hstep : selectStep [a, b] s = (some a, ⟨0, s.currentWeight - 2⟩) := by
        simp [selectStep, htm, h, REPLICA_WEIGHTS, WEIGHT_GCD_eq, MAX_WEIGHT_eq, hw, hguard]
      have e1 : selectLoop [a, b] selectFuel s
          = some (a, ⟨0, s.currentWeight - 2⟩) := by
        show (match selectStep [a, b] s with
          | (some r, s') => some (r, s')
          | (none, s') => selectLoop [a, b] 3 s')
          = some (a, (⟨0, s.currentWeight - 2⟩ : ReplicaState))
        rw [hstep]
      exact ⟨a, ⟨0, s.currentWeight - 2⟩, e1, Or.inl rfl, by norm_num,
        by show s.currentWeight - 2 ≤ (6 : Int); omega⟩
  · -- index 1 carries the maximum weight, so the guard holds immediately
    have hstep : selectStep [a, b] s = (some b, ⟨1, s.currentWeight⟩) := by
      simp [selectStep, htm, h, REPLICA_WEIGHTS, WEIGHT_GCD_eq, MAX_WEIGHT_eq, hcw]
    have e1 : selectLoop [a, b] selectFuel s = some (b, ⟨1, s.currentWeight⟩) := by
      show (match selectStep [a, b] s with
        | (some r, s') => some (r, s')
        | (none, s') => selectLoop [a, b] 3 s')
        = some (b, (⟨1, s.currentWeight⟩ : ReplicaState))
      rw [hstep]
    exact ⟨b, ⟨1, s.currentWeight⟩, e1, Or.inr rfl, by norm_num, hcw⟩

/-- C8: For a non-empty replica list of length at most 2, every call to
`selectReplica` from a state satisfying the module invariant (index at
least `-1`, weight at most `MAX_WEIGHT`) terminates within its loop fuel
and returns an element of the list, re-establishing the invariant; for the
empty list it throws `'No replicas configured'`. -/
theorem selectReplica_terminates_and_mem :
    (∀ s : ReplicaState,
      selectReplica ([] : List Nat) s = .error "No replicas configured") ∧
    (∀ (α : Type) (replicas : List α) (s : ReplicaState),
      replicas ≠ [] → replicas.length ≤ 2 →
      -1 ≤ s.currentIndex → s.currentWeight ≤ (MAX_WEIGHT : Int) →
      ∃ r s', selectReplica replicas s = .ok (r, s') ∧ r ∈ replicas ∧
        -1 ≤ s'.currentIndex ∧ s'.currentWeight ≤ (MAX_WEIGHT : Int)) := by
  constructor
  · intro s
    rfl
  · intro α replicas s hne hlen hci hcw
    have hmw : (MAX_WEIGHT : Int) = 6 := rfl
    rw [hmw] at hcw ⊢
    match replicas, hne, hlen with
    | [a], _, _ =>
        obtain ⟨s', hloop, hci', hcw'⟩ := selectLoop_one a s hci hcw
        exact ⟨a, s', by simp [selectReplica, hloop], by simp, hci', hcw'⟩
    | [a, b], _, _ =>
        obtain ⟨r, s', hloop, hr, hci', hcw'⟩ := selectLoop_two a b s hci hcw
        refine ⟨r, s', by simp [selectReplica, hloop], ?_, hci', hcw'⟩
        rcases hr with h | h <;> simp [h]

/-- Witness for C8 at the concrete two-element list `[10, 20]` and the
initial module state. -/
theorem selectReplica_terminates_and_mem_witness :
    ([10, 20] : List Nat) ≠ [] ∧ ([10, 20] : List Nat).length ≤ 2 ∧
    -1 ≤ initialReplicaState.currentIndex ∧
    initialReplicaState.currentWeight ≤ (MAX_WEIGHT : Int) ∧
    ∃ r s', selectReplica [10, 20] initialReplicaState = .ok (r, s') ∧
      r ∈ ([10, 20] : List Nat) ∧
      -1 ≤ s'.currentIndex ∧ s'.currentWeight ≤ (MAX_WEIGHT : Int) :=
  ⟨by decide, by decide, by decide, by decide,
    selectReplica_terminates_and_mem.2 Nat [10, 20] initialReplicaState
      (by decide) (by decide) (by decide) (by decide)⟩

/-! ## JavaScript `Map` as an insertion-ordered association list -/

/-- Source: `Map.get`: the value stored at `k`, if any. -/
def mapGet {β : Type} : List (String × β) → String → Option β
  | [], _ => none
  | e :: m, k => if e.1 == k then some e.2 else mapGet m k

/-- Source: `Map.set`: update the existing entry in place (keeping insertion
order) or append a new one, as a JS `Map` does. -/
def mapSet {β : Type} : List (String × β) → String → β → List (String × β)
  | [], k, v => [(k, v)]
  | e :: m, k, v => if e.1 == k then (k, v) :: m else e :: mapSet m k v

/-- Source: `Map.delete`: remove the entry stored at `k`. -/
def mapDelete {β : Type} : List (String × β) → String → List (String × β)
  | [], _ => []
  | e :: m, k => if e.1 == k then mapDelete m k else e :: mapDelete m k

lemma mapGet_mapSet_self {β : Type} (m : List (String × β)) (k : String) (v : β) :
    mapGet (mapSet m k v) k = some v := by
  induction m with
  | nil => simp [mapGet, mapSet]
  | cons e m ih =>
      by_cases h : e.1 == k
      · simp [mapGet, mapSet, h]
      · simp only [mapSet, h, if_neg, Bool.false_eq_true, ite_false, mapGet]
        simp [h, ih]

lemma mapGet_mapDelete_self {β : Type} (m : List (String × β)) (k : String) :
    mapGet (mapDelete m k) k = none := by
  induction m with
  | nil => simp [mapGet, mapDelete]
  | cons e m ih =>
      by_cases h : e.1 == k
      · simp [mapDelete, h, ih]
      · simp [mapDelete, mapGet, h, ih]

/-! ## Comprehensive user data, subscription rows, and the TTL cache
(`src/lib/user-data` module and `src/lib/subscription.ts`) -/

/-- The `stripeSubscription` payload of `ComprehensiveUserData`; dates are
epoch milliseconds. -/
structure StripeSubscriptionInfo where
  id : String
  plan : String
  status : String
  periodStart : Nat
  periodEnd : Nat
  cancelAtPeriodEnd : Bool
  cancelAt : Option Nat
  canceledAt : Option Nat
  endedAt : Option Nat
deriving DecidableEq, Repr

/-- Source: `export type ComprehensiveUserData = { ... }`. -/
structure ComprehensiveUserData where
  id : String
  email : String
  emailVerified : Bool
  name : String
  image : Option String
  stripeCustomerId : Option String
  createdAt : Nat
  updatedAt : Nat
  isProUser : Bool
  subscriptionStatus : String
  stripeSubscription : Option StripeSubscriptionInfo
deriving DecidableEq, Repr

/-- An entry of `userDataCache`: `{ data, expiresAt }`. -/
structure CachedUserData where
  data : ComprehensiveUserData
  expiresAt : Nat
deriving DecidableEq, Repr

/-- Source: `const CACHE_TTL_MS = 5 * 60 * 1000;` -/
def CACHE_TTL_MS : Nat := 5 * 60 * 1000

/-- Source: `const userDataCache = new Map<string, {data; expiresAt}>()`. -/
abbrev UserDataCache := List (String × CachedUserData)

/-- Source: `function getCachedUserData(userId)`: return unexpired cached data;
delete an expired entry; return `null` otherwise.  The current time is the
explicit `now` and the (possibly modified) map is returned alongside. -/
def getCachedUserData (cache : UserDataCache) (userId : String) (now : Nat) :
    Option ComprehensiveUserData × UserDataCache :=
  match mapGet cache userId with
  | some cached =>
      if cached.expiresAt > now then (some cached.data, cache)
      else (none, mapDelete cache userId)
  | none => (none, cache)

/-- Source: `function setCachedUserData(userId, data)`: store with
`expiresAt: Date.now() + CACHE_TTL_MS`. -/
def setCachedUserData (cache : UserDataCache) (userId : String)
    (data : ComprehensiveUserData) (now : Nat) : UserDataCache :=
  mapSet cache userId ⟨data, now + CACHE_TTL_MS⟩

/-- C2: `getCachedUserData` returns data stored by `setCachedUserData`
iff it was stored strictly less than `CACHE_TTL_MS` before the current
time; an entry at or past its `expiresAt` is deleted and `null` returned;
expired data is never returned. -/
theorem getCachedUserData_ttl :
    (∀ (cache : UserDataCache) (userId : String) (d : ComprehensiveUserData)
        (t now : Nat),
      (getCachedUserData (setCachedUserData cache userId d t) userId now).1
        = if now - t < CACHE_TTL_MS then some d else none) ∧
    (∀ (cache : UserDataCache) (userId : String) (e : CachedUserData) (now : Nat),
      mapGet cache userId = some e → e.expiresAt ≤ now →
        (getCachedUserData cache userId now).1 = none ∧
        mapGet (getCachedUserData cache userId now).2 userId = none) ∧
    (∀ (cache : UserDataCache) (userId : String) (now : Nat)
        (d : ComprehensiveUserData),
      (getCachedUserData cache userId now).1 = some d →
        ∃ e, mapGet cache userId = some e ∧ e.data = d ∧ now < e.expiresAt) := by
  refine ⟨fun cache userId d t now => ?_, fun cache userId e now hget hexp => ?_,
    fun cache userId now d h => ?_⟩
  · rw [show getCachedUserData (setCachedUserData cache userId d t) userId now
        = match mapGet (setCachedUserData cache userId d t) userId with
          | some cached =>
              if cached.expiresAt > now
              then (some cached.data, setCachedUserData cache userId d t)
              else (none, mapDelete (setCachedUserData cache userId d t) userId)
          | none => (none, setCachedUserData cache userId d t) from rfl,
      setCachedUserData, mapGet_mapSet_self]
    have hT : CACHE_TTL_MS = 300000 := rfl
    by_cases hlt : now - t < CACHE_TTL_MS
    · have hgt : t + CACHE_TTL_MS > now := by omega
      simp [hlt, hgt]
    · have hgt : ¬ (t + CACHE_TTL_MS > now) := by omega
      simp [hlt, hgt]
  · have hnot : ¬ (e.expiresAt > now) := by omega
    constructor
    · simp [getCachedUserData, hget, hnot]
    · simp [getCachedUserData, hget, hnot, mapGet_mapDelete_self]
  · unfold getCachedUserData at h
    cases hm : mapGet cache userId with
    | none => rw [hm] at h; simp at h
    | some e =>
        rw [hm] at h
        by_cases hlt : e.expiresAt > now
        · refine ⟨e, rfl, ?_, hlt⟩
          have he : some e.data = some d := by simpa [hlt] using h
          injection he
        · simp [hlt] at h

/-- A concrete `ComprehensiveUserData` value used by witnesses. -/
def sampleUserData : ComprehensiveUserData :=
  { id := "u1", email := "u1@example.com", emailVerified := true, name := "U",
    image := none, stripeCustomerId := none, createdAt := 0, updatedAt := 0,
    isProUser := false, subscriptionStatus := "none", stripeSubscription := none }

/-- Witness for C2: a freshly stored entry is returned before its TTL, and
an entry exactly at its `expiresAt` is deleted and not returned. -/
theorem getCachedUserData_ttl_witness :
    ((getCachedUserData (setCachedUserData [] "u" sampleUserData 0) "u" 1000).1
      = some sampleUserData) ∧
    (mapGet [("u", (⟨sampleUserData, 1000⟩ : CachedUserData))] "u"
        = some ⟨sampleUserData, 1000⟩ ∧
      (⟨sampleUserData, 1000⟩ : CachedUserData).expiresAt ≤ 1000 ∧
      (getCachedUserData [("u", ⟨sampleUserData, 1000⟩)] "u" 1000).1 = none ∧
      mapGet (getCachedUserData [("u", ⟨sampleUserData, 1000⟩)] "u" 1000).2 "u"
        = none) :=
  ⟨by rw [getCachedUserData_ttl.1 [] "u" sampleUserData 0 1000]; decide,
   by
    obtain ⟨h1, h2⟩ := getCachedUserData_ttl.2.1
      [("u", ⟨sampleUserData, 1000⟩)] "u" ⟨sampleUserData, 1000⟩ 1000
      (by decide) (by decide)
    exact ⟨by decide, by decide, h1, h2⟩⟩

/-! ## Database rows and the left-join user query -/

/-- A row of the `user` table (fields read by the queries here; dates are
epoch milliseconds). -/
structure UserRow where
  id : String
  email : String
  emailVerified : Bool
  name : Option String
  image : Option String
  stripeCustomerId : Option String
  createdAt : Nat
  updatedAt : Nat
deriving DecidableEq, Repr

/-- A row of the `subscription` table. -/
structure SubscriptionRow where
  id : String
  referenceId : String
  plan : String
  status : String
  periodStart : Nat
  periodEnd : Nat
  cancelAtPeriodEnd : Option Bool
  cancelAt : Option Nat
  canceledAt : Option Nat
  endedAt : Option Nat
deriving DecidableEq, Repr

/-- The relevant database state. -/
structure Database where
  users : List UserRow
  subscriptions : List SubscriptionRow
deriving DecidableEq, Repr

/-- Source: `SELECT ... FROM user LEFT JOIN subscription ON
subscription.referenceId = user.id WHERE user.id = userId`: one row per
matching subscription, or a single row with a null subscription side. -/
def userWithSubscriptionsQuery (db : Database) (userId : String) :
    List (UserRow × Option SubscriptionRow) :=
  (db.users.filter fun u => u.id == userId).flatMap fun u =>
    match db.subscriptions.filter (fun s => s.referenceId == u.id) with
    | [] => [(u, none)]
    | subs => subs.map fun s => (u, some s)

/-! ## Pro status (`src/lib/subscription.ts`) -/

/-- Source: `async function getComprehensiveProStatus(userId)`.  The argument
`dbRead` is the outcome of the awaited replica read of the `subscription`
table: `.error` when it throws (then the `catch` branch yields
`{isProUser: false, source: 'none'}`), `.ok` with the table rows
otherwise; the `where eq(subscription.referenceId, userId)` clause is the
filter. -/
def getComprehensiveProStatus (dbRead : Except String (List SubscriptionRow))
    (userId : String) : Bool × String :=
  match dbRead with
  | .error _ => (false, "none")
  | .ok rows =>
      let userSubscriptions := rows.filter fun s => s.referenceId == userId
      match userSubscriptions.find? fun s => s.status == "active" with
      | some _ => (true, "stripe")
      | none => (false, "none")

/-- Source: `async function isUserSubscribed()`: the session fetch may throw
(`.error`) or yield no user (`.ok none`); otherwise the comprehensive
check runs; every thrown error is caught and `false` returned. -/
def isUserSubscribed (session : Except String (Option String))
    (dbRead : Except String (List SubscriptionRow)) : Bool :=
  match session with
  | .error _ => false
  | .ok none => false
  | .ok (some userId) => (getComprehensiveProStatus dbRead userId).1

/-! ## Comprehensive and lightweight user data (user-data module) -/

/-- Source: `export type LightweightUserAuth`. -/
structure LightweightUserAuth where
  userId : String
  email : String
  isProUser : Bool
deriving DecidableEq, Repr

/-- JS `a || b` for a nullable string (`null`, `undefined` and `''` are
falsy). -/
def jsOrString (a : Option String) (b : String) : String :=
  match a with
  | some s => if s = "" then b else s
  | none => b

/-- The DB branch of `getLightweightUserAuth` (both caches missed): the
JOIN query, the empty-result guard, and
`result.some(row => row.subscriptionStatus === 'active')`. -/
def computeLightweightAuth (db : Database) (userId : String) :
    Option LightweightUserAuth :=
  match userWithSubscriptionsQuery db userId with
  | [] => none
  | row0 :: _ =>
      let result := userWithSubscriptionsQuery db userId
      let hasActiveStripeSub :=
        result.any fun row => (row.2.map (·.status)) == some "active"
      some { userId := row0.1.id, email := row0.1.email,
             isProUser := hasActiveStripeSub }

/-- JS `str.split(sep)` for a single-character separator, on the
character list of the string (structurally recursive, unlike
`String.splitOn`). -/
def jsSplit (sep : Char) : List Char → List (List Char)
  | [] => [[]]
  | c :: rest =>
      if c = sep then [] :: jsSplit sep rest
      else
        match jsSplit sep rest with
        | [] => [[c]]
        | p :: ps => (c :: p) :: ps

/-- The DB branch of `getComprehensiveUserData` (cache missed): the JOIN
query, the reshaping of subscription rows, the active-subscription
selection (JS stable `sort` by descending `periodEnd`, modelled as an
insertion sort), and the assembly of `ComprehensiveUserData`. -/
def computeComprehensiveUserData (db : Database) (userId : String) (now : Nat) :
    Option ComprehensiveUserData :=
  match userWithSubscriptionsQuery db userId with
  | [] => none
  | userData0 :: rest =>
      let userWithSubscriptions := userData0 :: rest
      let userData := userData0.1
      let stripeSubscriptions : List StripeSubscriptionInfo :=
        userWithSubscriptions.filterMap fun row =>
          row.2.map fun s =>
            { id := s.id, plan := s.plan, status := s.status,
              periodStart := s.periodStart, periodEnd := s.periodEnd,
              cancelAtPeriodEnd := s.cancelAtPeriodEnd.getD false,
              cancelAt := s.cancelAt, canceledAt := s.canceledAt,
              endedAt := s.endedAt }
      let activeStripeSubscription :=
        ((stripeSubscriptions.filter fun sub => sub.status == "active").insertionSort
          fun a b => b.periodEnd ≤ a.periodEnd)[0]?
      let isProUser := activeStripeSubscription.isSome
      let subscriptionStatus : String :=
        match activeStripeSubscription with
        | some _ => "active"
        | none =>
            if stripeSubscriptions.length > 0 then
              match (stripeSubscriptions.insertionSort
                  fun a b => b.periodEnd ≤ a.periodEnd)[0]? with
              | some latestStripeSubscription =>
                  if latestStripeSubscription.status == "canceled" then "canceled"
                  else if latestStripeSubscription.periodEnd < now then "expired"
                  else "none"
              | none => "none"
            else "none"
      some { id := userData.id, email := userData.email,
             emailVerified := userData.emailVerified,
             name := jsOrString userData.name
               (String.mk ((jsSplit '@' userData.email.data).headD [])),
             image := userData.image,
             stripeCustomerId := userData.stripeCustomerId,
             createdAt := userData.createdAt, updatedAt := userData.updatedAt,
             isProUser := isProUser, subscriptionStatus := subscriptionStatus,
             stripeSubscription := activeStripeSubscription }

/-- Source: `async function getComprehensiveUserData()`: resolve the session
(`none` = no authenticated user), consult the TTL cache, otherwise
recompute from the database and store the result before returning it.
Returns the result together with the updated cache. -/
def getComprehensiveUserData (session : Option String) (db : Database)
    (cache : UserDataCache) (now : Nat) :
    Option ComprehensiveUserData × UserDataCache :=
  match session with
  | none => (none, cache)
  | some userId =>
      match getCachedUserData cache userId now with
      | (some cached, cache1) => (some cached, cache1)
      | (none, cache1) =>
          match computeComprehensiveUserData db userId now with
          | none => (none, cache1)
          | some data => (some data, setCachedUserData cache1 userId data now)

/-- The rows the left join produces for a single user row. -/
def subRowsFor (db : Database) (u : UserRow) :
    List (UserRow × Option SubscriptionRow) :=
  match db.subscriptions.filter (fun s => s.referenceId == u.id) with
  | [] => [(u, none)]
  | subs => subs.map fun s => (u, some s)

lemma userWithSubscriptionsQuery_eq (db : Database) (userId : String) :
    userWithSubscriptionsQuery db userId
      = (db.users.filter fun u => u.id == userId).flatMap (subRowsFor db) := rfl

lemma subRowsFor_ne_nil (db : Database) (u : UserRow) : subRowsFor db u ≠ [] := by
  unfold subRowsFor
  cases h : db.subscriptions.filter (fun s => s.referenceId == u.id) with
  | nil => simp
  | cons a l => simp

lemma exists_active_subRowsFor (db : Database) (u : UserRow) :
    (∃ row ∈ subRowsFor db u, ∃ s, row.2 = some s ∧ s.status = "active")
      ↔ ∃ s ∈ db.subscriptions, s.referenceId = u.id ∧ s.status = "active" := by
  unfold subRowsFor
  cases hf : db.subscriptions.filter (fun s => s.referenceId == u.id) with
  | nil =>
      constructor
      · rintro ⟨row, hrow, s, hs, -⟩
        simp only [List.mem_singleton] at hrow
        subst hrow
        simp at hs
      · rintro ⟨s, hs, href, hact⟩
        have hmem : s ∈ db.subscriptions.filter (fun s => s.referenceId == u.id) := by
          simp [List.mem_filter, hs, href]
        rw [hf] at hmem
        simp at hmem
  | cons a l =>
      constructor
      · rintro ⟨row, hrow, s, hs2, hact⟩
        simp only [List.mem_map] at hrow
        obtain ⟨s', hs', heq⟩ := hrow
        subst heq
        simp only [Option.some.injEq] at hs2
        subst hs2
        have hmem : s' ∈ db.subscriptions.filter (fun s => s.referenceId == u.id) := by
          rw [hf]; exact hs'
        rw [List.mem_filter] at hmem
        exact ⟨s', hmem.1, by simpa using hmem.2, hact⟩
      · rintro ⟨s, hs, href, hact⟩
        have hmem : s ∈ a :: l := by
          rw [← hf]
          simp [List.mem_filter, hs, href]
        exact ⟨(u, some s), List.mem_map_of_mem _ hmem, s, rfl, hact⟩

lemma exists_active_query (db : Database) (userId : String) :
    (∃ row ∈ userWithSubscriptionsQuery db userId,
        ∃ s, row.2 = some s ∧ s.status = "active")
      ↔ (∃ u ∈ db.users, u.id = userId) ∧
        ∃ s ∈ db.subscriptions, s.referenceId = userId ∧ s.status = "active" := by
  rw [userWithSubscriptionsQuery_eq]
  constructor
  · rintro ⟨row, hrow, s, hs, hact⟩
    rw [List.mem_flatMap] at hrow
    obtain ⟨u, hu, hrowu⟩ := hrow
    rw [List.mem_filter] at hu
    have hid : u.id = userId := by simpa using hu.2
    have hsub := (exists_active_subRowsFor db u).mp ⟨row, hrowu, s, hs, hact⟩
    obtain ⟨s', hs', href', hact'⟩ := hsub
    exact ⟨⟨u, hu.1, hid⟩, s', hs', by rw [href', hid], hact'⟩
  · rintro ⟨⟨u, hu, hid⟩, s, hs, href, hact⟩
    have hsub := (exists_active_subRowsFor db u).mpr
      ⟨s, hs, by rw [href, hid], hact⟩
    obtain ⟨row, hrow, s', hs', hact'⟩ := hsub
    refine ⟨row, ?_, s', hs', hact'⟩
    rw [List.mem_flatMap]
    exact ⟨u, by simp [List.mem_filter, hu, hid], hrow⟩

lemma query_ne_nil_iff (db : Database) (userId : String) :
    userWithSubscriptionsQuery db userId ≠ []
      ↔ ∃ u ∈ db.users, u.id = userId := by
  rw [userWithSubscriptionsQuery_eq]
  constructor
  · intro h
    by_contra hne
    push_neg at hne
    apply h
    have hfil : db.users.filter (fun u => u.id == userId) = [] := by
      rw [List.filter_eq_nil_iff]
      intro u hu
      simpa using hne u hu
    rw [hfil]
    rfl
  · rintro ⟨u, hu, hid⟩ hq
    have hmem : u ∈ db.users.filter (fun u => u.id == userId) := by
      simp [List.mem_filter, hu, hid]
    obtain ⟨row, hrow⟩ : ∃ row, row ∈ subRowsFor db u := by
      cases hsr : subRowsFor db u with
      | nil => exact absurd hsr (subRowsFor_ne_nil db u)
      | cons a l => exact ⟨a, List.mem_cons_self a l⟩
    have : row ∈ (db.users.filter fun u => u.id == userId).flatMap (subRowsFor db) :=
      List.mem_flatMap.mpr ⟨u, hmem, hrow⟩
    rw [hq] at this
    simp at this

lemma head?_insertionSort_isSome {α : Type} (r : α → α → Prop) [DecidableRel r]
    (l : List α) : ((l.insertionSort r)[0]?).isSome = true ↔ l ≠ [] := by
  have hlen : (l.insertionSort r).length = l.length :=
    (List.perm_insertionSort r l).length_eq
  constructor
  · intro hs hnil
    subst hnil
    simp [List.insertionSort] at hs
  · intro hne
    have hpos : 0 < (l.insertionSort r).length := by
      rw [hlen]
      exact List.length_pos.mpr hne
    rw [List.getElem?_eq_getElem hpos]
    rfl

lemma getComprehensiveProStatus_ok_iff (rows : List SubscriptionRow)
    (userId : String) :
    (getComprehensiveProStatus (.ok rows) userId).1 = true ↔
      ∃ s ∈ rows, s.referenceId = userId ∧ s.status = "active" := by
  have hval : (getComprehensiveProStatus (.ok rows) userId).1
      = ((rows.filter fun s => s.referenceId == userId).find?
          fun s => s.status == "active").isSome := by
    cases hf : (rows.filter fun s => s.referenceId == userId).find?
        fun s => s.status == "active" with
    | none => simp [getComprehensiveProStatus, hf]
    | some x => simp [getComprehensiveProStatus, hf]
  rw [hval, List.find?_isSome]
  constructor
  · rintro ⟨x, hx, hpx⟩
    rw [List.mem_filter] at hx
    exact ⟨x, hx.1, by simpa using hx.2, by simpa using hpx⟩
  · rintro ⟨s, hs, h1, h2⟩
    exact ⟨s, by simp [List.mem_filter, hs, h1], by simp [h2]⟩

lemma computeComprehensiveUserData_isPro (db : Database) (userId : String)
    (now : Nat) (d : ComprehensiveUserData)
    (h : computeComprehensiveUserData db userId now = some d) :
    d.isProUser = true ↔
      ∃ s ∈ db.subscriptions, s.referenceId = userId ∧ s.status = "active" := by
  unfold computeComprehensiveUserData at h
  cases hq : userWithSubscriptionsQuery db userId with
  | nil => rw [hq] at h; exact absurd h (by simp)
  | cons row0 rest =>
      rw [hq] at h
      simp only [Option.some.injEq] at h
      subst h
      show ((((row0 :: rest).filterMap fun row =>
          row.2.map fun s =>
            ({ id := s.id, plan := s.plan, status := s.status,
               periodStart := s.periodStart, periodEnd := s.periodEnd,
               cancelAtPeriodEnd := s.cancelAtPeriodEnd.getD false,
               cancelAt := s.cancelAt, canceledAt := s.canceledAt,
               endedAt := s.endedAt } : StripeSubscriptionInfo)).filter
          fun sub => sub.status == "active").insertionSort
          fun a b => b.periodEnd ≤ a.periodEnd)[0]?.isSome = true ↔ _
      rw [head?_insertionSort_isSome, Ne, List.filter_eq_nil_iff]
      push_neg
      constructor
      · rintro ⟨info, hinfo, hact⟩
        rw [List.mem_filterMap] at hinfo
        obtain ⟨row, hrow, hmap⟩ := hinfo
        rw [Option.map_eq_some'] at hmap
        obtain ⟨s, hs, hmk⟩ := hmap
        have hstat : s.status = "active" := by
          have h1 : info.status = s.status := by rw [← hmk]
          have h2 : info.status = "active" := by simpa using hact
          rw [← h1, h2]
        have hex : ∃ row ∈ userWithSubscriptionsQuery db userId,
            ∃ s, row.2 = some s ∧ s.status = "active" := by
          rw [hq]
          exact ⟨row, hrow, s, hs, hstat⟩
        exact ((exists_active_query db userId).mp hex).2
      · rintro ⟨s, hs, href, hact⟩
        have hu : ∃ u ∈ db.users, u.id = userId := by
          rw [← query_ne_nil_iff, hq]
          simp
        obtain ⟨row, hrow, s', hs', hact'⟩ :=
          (exists_active_query db userId).mpr ⟨hu, s, hs, href, hact⟩
        rw [hq] at hrow
        exact ⟨{ id := s'.id, plan := s'.plan, status := s'.status,
                 periodStart := s'.periodStart, periodEnd := s'.periodEnd,
                 cancelAtPeriodEnd := s'.cancelAtPeriodEnd.getD false,
                 cancelAt := s'.cancelAt, canceledAt := s'.canceledAt,
                 endedAt := s'.endedAt },
          List.mem_filterMap.mpr ⟨row, hrow, by rw [hs']; rfl⟩,
          by simpa using hact'⟩

lemma computeLightweightAuth_isPro (db : Database) (userId : String)
    (la : LightweightUserAuth)
    (h : computeLightweightAuth db userId = some la) :
    la.isProUser = true ↔
      ∃ s ∈ db.subscriptions, s.referenceId = userId ∧ s.status = "active" := by
  have hpred : ∀ row : UserRow × Option SubscriptionRow,
      ((row.2.map (·.status)) == some "active") = true ↔
        ∃ s, row.2 = some s ∧ s.status = "active" := by
    intro row
    cases hr2 : row.2 with
    | none => simp
    | some s => simp
  unfold computeLightweightAuth at h
  cases hq : userWithSubscriptionsQuery db userId with
  | nil => rw [hq] at h; exact absurd h (by simp)
  | cons row0 rest =>
      rw [hq] at h
      simp only [Option.some.injEq] at h
      subst h
      show (((row0 :: rest).any fun row =>
          (row.2.map (·.status)) == some "active") = true) ↔ _
      rw [List.any_eq_true]
      constructor
      · rintro ⟨row, hrow, hp⟩
        obtain ⟨s, hs, hact⟩ := (hpred row).mp hp
        rw [← hq] at hrow
        exact ((exists_active_query db userId).mp ⟨row, hrow, s, hs, hact⟩).2
      · rintro ⟨s, hs, href, hact⟩
        have hu : ∃ u ∈ db.users, u.id = userId := by
          rw [← query_ne_nil_iff, hq]
          simp
        obtain ⟨row, hrow, s', hs', hact'⟩ :=
          (exists_active_query db userId).mpr ⟨hu, s, hs, href, hact⟩
        rw [hq] at hrow
        exact ⟨row, hrow, (hpred row).mpr ⟨s', hs', hact'⟩⟩

/-- C3: Pro status is derived solely from the presence of an active
subscription row: `getComprehensiveProStatus` reports `isProUser = true`
iff some subscription row for the user has status `'active'`, and the
same equivalence determines `isProUser` in the computed comprehensive
user data and in the lightweight auth data. -/
theorem isProUser_iff_active_subscription :
    (∀ (rows : List SubscriptionRow) (userId : String),
      (getComprehensiveProStatus (.ok rows) userId).1 = true ↔
        ∃ s ∈ rows, s.referenceId = userId ∧ s.status = "active") ∧
    (∀ (db : Database) (userId : String) (now : Nat) (d : ComprehensiveUserData),
      computeComprehensiveUserData db userId now = some d →
      (d.isProUser = true ↔
        ∃ s ∈ db.subscriptions, s.referenceId = userId ∧ s.status = "active")) ∧
    (∀ (db : Database) (userId : String) (la : LightweightUserAuth),
      computeLightweightAuth db userId = some la →
      (la.isProUser = true ↔
        ∃ s ∈ db.subscriptions, s.referenceId = userId ∧ s.status = "active")) :=
  ⟨getComprehensiveProStatus_ok_iff,
   fun db userId now d h => computeComprehensiveUserData_isPro db userId now d h,
   fun db userId la h => computeLightweightAuth_isPro db userId la h⟩

/-- A concrete active subscription row used by witnesses. -/
def sampleSubscription : SubscriptionRow :=
  { id := "sub1", referenceId := "u1", plan := "pro", status := "active",
    periodStart := 0, periodEnd := 1000, cancelAtPeriodEnd := none,
    cancelAt := none, canceledAt := none, endedAt := none }

/-- A concrete user row used by witnesses. -/
def sampleUserRow : UserRow :=
  { id := "u1", email := "u1@example.com", emailVerified := true,
    name := some "U", image := none, stripeCustomerId := none,
    createdAt := 0, updatedAt := 0 }

/-- A concrete database used by witnesses. -/
def sampleDb : Database :=
  { users := [sampleUserRow], subscriptions := [sampleSubscription] }

/-- Witness for C3 at the concrete one-user, one-active-subscription
database. -/
theorem isProUser_iff_active_subscription_witness :
    (∃ d, computeComprehensiveUserData sampleDb "u1" 0 = some d ∧
      (d.isProUser = true ↔
        ∃ s ∈ sampleDb.subscriptions, s.referenceId = "u1" ∧
          s.status = "active")) ∧
    (∃ la, computeLightweightAuth sampleDb "u1" = some la ∧
      (la.isProUser = true ↔
        ∃ s ∈ sampleDb.subscriptions, s.referenceId = "u1" ∧
          s.status = "active")) := by
  constructor
  · have hd : (computeComprehensiveUserData sampleDb "u1" 0).isSome = true := by
      decide
    obtain ⟨d, hd'⟩ := Option.isSome_iff_exists.mp hd
    exact ⟨d, hd', isProUser_iff_active_subscription.2.1 sampleDb "u1" 0 d hd'⟩
  · have hl : (computeLightweightAuth sampleDb "u1").isSome = true := by decide
    obtain ⟨la, hl'⟩ := Option.isSome_iff_exists.mp hl
    exact ⟨la, hl', isProUser_iff_active_subscription.2.2 sampleDb "u1" la hl'⟩

/-- C10: Pro-status checks fail closed: a throwing database read makes
`getComprehensiveProStatus` return `{isProUser: false, source: 'none'}`;
`isUserSubscribed` returns `false` when the session fetch throws or
yields no user; and `isUserSubscribed` only ever returns `true` when the
session and the database read both succeeded and an active subscription
row exists for the session user. -/
theorem proStatus_fails_closed :
    (∀ (e : String) (userId : String),
      getComprehensiveProStatus (.error e) userId = (false, "none")) ∧
    (∀ (e : String) (dbRead : Except String (List SubscriptionRow)),
      isUserSubscribed (.error e) dbRead = false) ∧
    (∀ dbRead : Except String (List SubscriptionRow),
      isUserSubscribed (.ok none) dbRead = false) ∧
    (∀ (session : Except String (Option String))
        (dbRead : Except String (List SubscriptionRow)),
      isUserSubscribed session dbRead = true →
        ∃ userId rows, session = .ok (some userId) ∧ dbRead = .ok rows ∧
          ∃ s ∈ rows, s.referenceId = userId ∧ s.status = "active") := by
  refine ⟨fun e userId => rfl, fun e dbRead => rfl, fun dbRead => rfl,
    fun session dbRead h => ?_⟩
  match session with
  | .error e => exact absurd h (by simp [isUserSubscribed])
  | .ok none => exact absurd h (by simp [isUserSubscribed])
  | .ok (some userId) =>
      match dbRead with
      | .error e =>
          exact absurd h (by simp [isUserSubscribed, getComprehensiveProStatus])
      | .ok rows =>
          have hx := (getComprehensiveProStatus_ok_iff rows userId).mp h
          exact ⟨userId, rows, rfl, rfl, hx⟩

/-- Witness for C10: with a succeeding session and database read and one
active subscription row, `isUserSubscribed` is `true` and the claimed
decomposition exists. -/
theorem proStatus_fails_closed_witness :
    isUserSubscribed (.ok (some "u1")) (.ok [sampleSubscription]) = true ∧
    ∃ userId rows,
      (Except.ok (some "u1") : Except String (Option String)) = .ok (some userId) ∧
      (Except.ok [sampleSubscription] : Except String (List SubscriptionRow))
        = .ok rows ∧
      ∃ s ∈ rows, s.referenceId = userId ∧ s.status = "active" :=
  ⟨by decide, proStatus_fails_closed.2.2.2 _ _ (by decide)⟩

lemma getCachedUserData_hit (cache : UserDataCache) (userId : String)
    (now : Nat) (e : CachedUserData) (h : mapGet cache userId = some e)
    (hfresh : now < e.expiresAt) :
    getCachedUserData cache userId now = (some e.data, cache) := by
  unfold getCachedUserData
  rw [h]
  simp [hfresh]

/-- C4: `getComprehensiveUserData` is a read-through cache: on a cache
miss the freshly computed result is stored (with a `CACHE_TTL_MS` expiry)
before it is returned, and any second call for the same user within the
TTL — even against a different database state — returns the first call's
result from the cache, leaving the cache unchanged. -/
theorem getComprehensiveUserData_read_through :
    ∀ (userId : String) (db : Database) (cache : UserDataCache) (t : Nat)
      (r : ComprehensiveUserData) (c1 : UserDataCache),
      (getCachedUserData cache userId t).1 = none →
      getComprehensiveUserData (some userId) db cache t = (some r, c1) →
      (computeComprehensiveUserData db userId t = some r ∧
        mapGet c1 userId = some ⟨r, t + CACHE_TTL_MS⟩) ∧
      (∀ (db' : Database) (t' : Nat), t' < t + CACHE_TTL_MS →
        getComprehensiveUserData (some userId) db' c1 t' = (some r, c1)) := by
  intro userId db cache t r c1 hmiss hcall
  have hget : getCachedUserData cache userId t
      = (none, (getCachedUserData cache userId t).2) := by
    rw [← hmiss]
  have hcall' : (match getCachedUserData cache userId t with
      | (some cached, cache1) => (some cached, cache1)
      | (none, cache1) =>
          match computeComprehensiveUserData db userId t with
          | none => (none, cache1)
          | some data => (some data, setCachedUserData cache1 userId data t))
      = (some r, c1) := hcall
  rw [hget] at hcall'
  cases hcomp : computeComprehensiveUserData db userId t with
  | none => rw [hcomp] at hcall'; simp at hcall'
  | some data =>
      rw [hcomp] at hcall'
      simp only [Prod.mk.injEq, Option.some.injEq] at hcall'
      obtain ⟨h1, h2⟩ := hcall'
      subst h1
      subst h2
      have hmget : mapGet
          (setCachedUserData (getCachedUserData cache userId t).2 userId data t)
          userId = some ⟨data, t + CACHE_TTL_MS⟩ :=
        mapGet_mapSet_self _ _ _
      refine ⟨⟨rfl, hmget⟩, fun db' t' ht' => ?_⟩
      have hcache := getCachedUserData_hit
        (setCachedUserData (getCachedUserData cache userId t).2 userId data t)
        userId t' ⟨data, t + CACHE_TTL_MS⟩ hmget ht'
      have hfinal : (match getCachedUserData
          (setCachedUserData (getCachedUserData cache userId t).2 userId data t)
          userId t' with
        | (some cached, cache1) => (some cached, cache1)
        | (none, cache1) =>
            match computeComprehensiveUserData db' userId t' with
            | none => (none, cache1)
            | some d => (some d, setCachedUserData cache1 userId d t'))
          = ((some data : Option ComprehensiveUserData),
             setCachedUserData (getCachedUserData cache userId t).2 userId data t) := by
        rw [hcache]
      exact hfinal

/-- Witness for C4: a first call on the empty cache against the sample
database, then a second call one millisecond later. -/
theorem getComprehensiveUserData_read_through_witness :
    ∃ r c1,
      (getCachedUserData ([] : UserDataCache) "u1" 0).1 = none ∧
      getComprehensiveUserData (some "u1") sampleDb [] 0 = (some r, c1) ∧
      (computeComprehensiveUserData sampleDb "u1" 0 = some r ∧
        mapGet c1 "u1" = some ⟨r, 0 + CACHE_TTL_MS⟩) ∧
      getComprehensiveUserData (some "u1") sampleDb c1 1 = (some r, c1) := by
  have hmiss : (getCachedUserData ([] : UserDataCache) "u1" 0).1 = none := by
    decide
  have hsome : ((getComprehensiveUserData (some "u1") sampleDb [] 0).1).isSome
      = true := by decide
  obtain ⟨r, hr⟩ := Option.isSome_iff_exists.mp hsome
  have hcall : getComprehensiveUserData (some "u1") sampleDb [] 0
      = (some r, (getComprehensiveUserData (some "u1") sampleDb [] 0).2) := by
    rw [← hr]
  obtain ⟨hstore, hsecond⟩ :=
    getComprehensiveUserData_read_through "u1" sampleDb [] 0 r _ hmiss hcall
  exact ⟨r, _, hmiss, hcall, hstore, hsecond sampleDb 1 (by decide)⟩

/-! ## Reddit search tool (`redditSearchTool`) -/

/-- A result returned by `tvly.search`. -/
structure TavilyResult where
  url : String
  title : Option String
  content : Option String
  publishedDate : Option String
  score : Int
deriving DecidableEq, Repr

/-- A processed result entry of the Reddit search tool. -/
structure RedditSearchResult where
  url : String
  title : String
  content : String
  published_date : Option String
  subreddit : String
  isRedditPost : Bool
  score : Int
deriving DecidableEq, Repr

/-- One element of the returned `searches` array: `{query, results}`. -/
structure RedditQuerySearch where
  query : String
  results : List RedditSearchResult
deriving DecidableEq, Repr

/-- Case-insensitive character comparison (the regex `i` flag). -/
def charCaseEq (a b : Char) : Bool := a.toLower == b.toLower

/-- Case-insensitive "`p` starts the list `s`". -/
def ciStartsWith : List Char → List Char → Bool
  | [], _ => true
  | _ :: _, [] => false
  | p :: ps, c :: cs => charCaseEq p c && ciStartsWith ps cs

/-- Source: `url.match(/reddit\.com\/r\/([^/]+)/i)`: at the first position where
`reddit.com/r/` matches case-insensitively and is followed by at least one
non-`/` character, capture that run of non-`/` characters. -/
def subredditCapture : List Char → Option (List Char)
  | [] => none
  | c :: cs =>
      if ciStartsWith "reddit.com/r/".data (c :: cs) then
        let rest := (c :: cs).drop "reddit.com/r/".data.length
        let cap := rest.takeWhile fun ch => ch ≠ '/'
        if cap.isEmpty then subredditCapture cs else some cap
      else subredditCapture cs

/-- Source: `/reddit\.com\/r\/[^/]+\/comments\//i.test(url)`. -/
def isRedditPostTest : List Char → Bool
  | [] => false
  | c :: cs =>
      (ciStartsWith "reddit.com/r/".data (c :: cs) &&
        (let rest := (c :: cs).drop "reddit.com/r/".data.length
         let cap := rest.takeWhile fun ch => ch ≠ '/'
         !cap.isEmpty && ciStartsWith "/comments/".data (rest.drop cap.length))) ||
      isRedditPostTest cs

/-- The per-result reshaping inside `execute` (`processedResults`). -/
def processTavilyResult (result : TavilyResult) : RedditSearchResult :=
  let subreddit :=
    match subredditCapture result.url.data with
    | some cap => String.mk cap
    | none => "unknown"
  { url := result.url,
    title := jsOrString result.title result.url,
    content := jsOrString result.content "",
    published_date := result.publishedDate,
    subreddit := subreddit,
    isRedditPost := isRedditPostTest result.url.data,
    score := result.score }

/-- JS `a || b` on an optionally-present number (`undefined` and `0` are
falsy). -/
def jsOrNumber (a : Option Int) (b : Int) : Int :=
  match a with
  | some v => if v = 0 then b else v
  | none => b

/-- Source: `const currentMaxResults = maxResults?.[index] || maxResults?.[0] || 20;` -/
def currentMaxResults (maxResults : Option (List Int)) (index : Nat) : Int :=
  jsOrNumber (maxResults.bind fun l => l[index]?)
    (jsOrNumber (maxResults.bind fun l => l[0]?) 20)

/-- The `execute` body of `redditSearchTool`: one search per query, in
order; `tvly q m = none` models `tvly.search` throwing, in which case the
`catch` branch contributes `{query, results: []}`. -/
def redditSearchExecute (tvly : String → Int → Option (List TavilyResult))
    (queries : List String) (maxResults : Option (List Int)) :
    List RedditQuerySearch :=
  queries.mapIdx fun index query =>
    match tvly query (currentMaxResults maxResults index) with
    | some data => { query := query, results := data.map processTavilyResult }
    | none => { query := query, results := [] }

/-- The zod input schema of `redditSearchTool`:
`queries: z.array(z.string().max(200)).min(1).max(5)`. -/
def redditQueriesValid (queries : List String) : Bool :=
  1 ≤ queries.length && queries.length ≤ 5 &&
    queries.all fun q => q.length ≤ 200

/-- The tool as invoked by the `ai` framework, which validates the
structured parameters against the zod `inputSchema` before `execute`
runs: invalid inputs are rejected (`none`). -/
def redditSearchToolInvoke (tvly : String → Int → Option (List TavilyResult))
    (queries : List String) (maxResults : Option (List Int)) :
    Option (List RedditQuerySearch) :=
  if redditQueriesValid queries then
    some (redditSearchExecute tvly queries maxResults)
  else none

/-- C5: The Reddit search tool returns exactly one `searches` entry per
input query, in input order; a query whose external search throws
contributes `{query, results: []}`; and entry `i` depends only on the
search outcome for query `i`, so one query's failure never affects the
others. -/
theorem redditSearch_per_query_isolation :
    ∀ (tvly : String → Int → Option (List TavilyResult))
      (queries : List String) (maxResults : Option (List Int)),
      (redditSearchExecute tvly queries maxResults).length = queries.length ∧
      (∀ (i : Nat) (q : String), queries[i]? = some q →
        ∃ entry, (redditSearchExecute tvly queries maxResults)[i]? = some entry ∧
          entry.query = q ∧
          (tvly q (currentMaxResults maxResults i) = none → entry.results = []) ∧
          (∀ tvly' : String → Int → Option (List TavilyResult),
            tvly' q (currentMaxResults maxResults i)
              = tvly q (currentMaxResults maxResults i) →
            (redditSearchExecute tvly' queries maxResults)[i]? = some entry)) := by
  intro tvly queries maxResults
  refine ⟨List.length_mapIdx, fun i q hq => ?_⟩
  refine ⟨match tvly q (currentMaxResults maxResults i) with
    | some data => { query := q, results := data.map processTavilyResult }
    | none => { query := q, results := [] }, ?_, ?_, ?_, ?_⟩
  · rw [redditSearchExecute, List.getElem?_mapIdx, hq]
    rfl
  · cases tvly q (currentMaxResults maxResults i) <;> rfl
  · intro hthrow
    rw [hthrow]
  · intro tvly' hsame
    rw [redditSearchExecute, List.getElem?_mapIdx, hq]
    rw [Option.map_some']
    simp only [hsame]

/-- Witness for C5 at a two-query input whose external search always
throws. -/
theorem redditSearch_per_query_isolation_witness :
    (["a", "b"] : List String)[0]? = some "a" ∧
    ∃ entry,
      (redditSearchExecute (fun _ _ => none) ["a", "b"] none)[0]? = some entry ∧
      entry.query = "a" ∧ entry.results = [] := by
  obtain ⟨entry, he, hqe, herr, -⟩ :=
    (redditSearch_per_query_isolation (fun _ _ => none) ["a", "b"] none).2 0 "a"
      (by decide)
  exact ⟨by decide, entry, he, hqe, herr rfl⟩

/-- C7: The Reddit tool's schema admits exactly 1 to 5 queries of at
most 200 characters each (anything else is rejected before `execute`
runs), and the per-query result limit follows the chain
`maxResults[index]`, else `maxResults[0]`, else `20`. -/
theorem redditSearch_schema_and_defaults :
    (∀ queries : List String, redditQueriesValid queries = true ↔
      (1 ≤ queries.length ∧ queries.length ≤ 5 ∧ ∀ q ∈ queries, q.length ≤ 200)) ∧
    (∀ (tvly : String → Int → Option (List TavilyResult))
        (queries : List String) (maxResults : Option (List Int)),
      redditQueriesValid queries = false →
      redditSearchToolInvoke tvly queries maxResults = none) ∧
    (∀ index : Nat, currentMaxResults none index = 20) ∧
    (∀ (l : List Int) (index : Nat) (v : Int),
      l[index]? = some v → v ≠ 0 → currentMaxResults (some l) index = v) ∧
    (∀ (l : List Int) (index : Nat) (w : Int),
      (l[index]? = none ∨ l[index]? = some 0) → l[0]? = some w → w ≠ 0 →
      currentMaxResults (some l) index = w) ∧
    (∀ (l : List Int) (index : Nat),
      (l[index]? = none ∨ l[index]? = some 0) →
      (l[0]? = none ∨ l[0]? = some 0) →
      currentMaxResults (some l) index = 20) := by
  refine ⟨fun queries => ?_, fun tvly queries maxResults hbad => ?_,
    fun index => rfl, fun l index v hv hnz => ?_, fun l index w hi h0 hnz => ?_,
    fun l index hi h0 => ?_⟩
  · simp [redditQueriesValid, List.all_eq_true, and_assoc]
  · rw [redditSearchToolInvoke, hbad]
    rfl
  · simp [currentMaxResults, hv, jsOrNumber, hnz]
  · rcases hi with hi | hi <;>
      simp [currentMaxResults, hi, h0, jsOrNumber, hnz]
  · rcases hi with hi | hi <;> rcases h0 with h0 | h0 <;>
      simp [currentMaxResults, hi, h0, jsOrNumber]

/-- Witness for C7: schema rejection of six queries, the explicit value,
the `maxResults[0]` fallback, and the default of 20. -/
theorem redditSearch_schema_and_defaults_witness :
    redditQueriesValid ["a", "b", "c", "d", "e", "f"] = false ∧
    redditSearchToolInvoke (fun _ _ => none) ["a", "b", "c", "d", "e", "f"] none
      = none ∧
    currentMaxResults (some [5]) 0 = 5 ∧
    currentMaxResults (some [7, 0]) 1 = 7 ∧
    currentMaxResults (some [0]) 3 = 20 :=
  ⟨by decide,
   redditSearch_schema_and_defaults.2.1 (fun _ _ => none)
     ["a", "b", "c", "d", "e", "f"] none (by decide),
   redditSearch_schema_and_defaults.2.2.2.1 [5] 0 5 (by decide) (by decide),
   redditSearch_schema_and_defaults.2.2.2.2.1 [7, 0] 1 7 (Or.inr (by decide))
     (by decide) (by decide),
   redditSearch_schema_and_defaults.2.2.2.2.2 [0] 3 (Or.inl (by decide))
     (Or.inr (by decide))⟩

/-! ## Trending movies tool (`trendingMoviesTool`) -/

/-- The `show` object of a TVMaze schedule episode (the fields the tool
reads); `ratingAverage` is `show.rating?.average`, `none` when the rating
object or the average is absent/null. -/
structure TvShow where
  id : Int
  name : String
  summary : Option String
  ratingAverage : Option Rat
  imageOriginal : Option String
  premiered : Option String
  genres : List String
  externalsImdb : Option String
deriving DecidableEq, Repr

/-- One element of the schedule response: an episode wrapping its show
(`episode.show`; `show` is a Lean keyword, hence `show_`). -/
structure ScheduleEpisode where
  show_ : TvShow
deriving DecidableEq, Repr

/-- JS truthiness of `show.rating?.average` (absent, `null` and `0` are
falsy). -/
def ratingTruthy (sh : TvShow) : Bool :=
  match sh.ratingAverage with
  | some v => !(v == 0)
  | none => false

/-- Source: `showMap.has(id)` for the insertion-ordered id-keyed map. -/
def showMapHas (m : List (Int × TvShow)) (k : Int) : Bool :=
  (m.find? fun e => e.1 == k).isSome

/-- The loop body of
`data.forEach(episode => { const show = episode.show;
if (!showMap.has(show.id) && show.rating?.average) showMap.set(show.id, show); })`
(a `Map.set` of a fresh key appends). -/
def buildShowMapStep (m : List (Int × TvShow)) (episode : ScheduleEpisode) :
    List (Int × TvShow) :=
  let sh := episode.show_
  if !(showMapHas m sh.id) && ratingTruthy sh then m ++ [(sh.id, sh)] else m

/-- Source: `const showMap = new Map(); data.forEach(...)`. -/
def buildShowMap (data : List ScheduleEpisode) : List (Int × TvShow) :=
  data.foldl buildShowMapStep []

/-- Structural-fuel helper for `stripTags`; the fuel never falls below the
list length. -/
def stripTagsAux : Nat → List Char → List Char
  | _, [] => []
  | 0, l => l
  | fuel + 1, c :: rest =>
      if c = '<' then
        if rest.any (· = '>') then
          stripTagsAux fuel ((rest.dropWhile (· ≠ '>')).drop 1)
        else c :: stripTagsAux fuel rest
      else c :: stripTagsAux fuel rest

/-- Source: `summary.replace(/<[^>]*>/g, '')`: every span from a `<` to the first
following `>` is removed; a `<` with no later `>` never matches and is
kept. -/
def stripTags (l : List Char) : List Char := stripTagsAux l.length l

/-- JS `a || b` on rationals (`0` falsy): `rating?.average || 0`. -/
def jsOrRat (a : Option Rat) (b : Rat) : Rat :=
  match a with
  | some v => if v == 0 then b else v
  | none => b

/-- JS `a || null` on an optional string (empty string collapses to
null). -/
def jsOrNullString (a : Option String) : Option String :=
  match a with
  | some s => if s = "" then none else some s
  | none => none

/-- Source: `new Date(premiered).getFullYear().toString()` for the ISO
`yyyy-mm-dd` dates TVMaze returns: the digits before the first `-`. -/
def jsYear (premiered : String) : String :=
  String.mk ((jsSplit '-' premiered.data).headD [])

/-- One entry of the tool's `results` array. -/
structure MovieResult where
  id : Int
  imdb_id : Option String
  name : String
  title : String
  overview : String
  vote_average : Rat
  poster_path : Option String
  backdrop_path : Option String
  first_air_date : Option String
  release_date : Option String
  genres : List String
  year : Option String
deriving DecidableEq, Repr

/-- The `.map(show => ({...}))` reshaping of one show. -/
def mkMovieResult (sh : TvShow) : MovieResult :=
  { id := sh.id,
    imdb_id := jsOrNullString sh.externalsImdb,
    name := sh.name,
    title := sh.name,
    overview := jsOrString (sh.summary.map fun s => String.mk (stripTags s.data)) "",
    vote_average := jsOrRat sh.ratingAverage 0,
    poster_path := jsOrNullString sh.imageOriginal,
    backdrop_path := jsOrNullString sh.imageOriginal,
    first_air_date := sh.premiered,
    release_date := sh.premiered,
    genres := sh.genres,
    year := match sh.premiered with
      | some p => if p = "" then none else some (jsYear p)
      | none => none }

/-- Source: `Array.from(showMap.values())
  .sort((a, b) => (b.rating?.average || 0) - (a.rating?.average || 0))
  .slice(0, 20).map(...)` — the stable JS sort is modelled as an insertion
sort by descending `rating?.average || 0`. -/
def trendingMoviesResults (data : List ScheduleEpisode) : List MovieResult :=
  let showMap := buildShowMap data
  ((((showMap.map (·.2)).insertionSort
      fun a b => jsOrRat b.ratingAverage 0 ≤ jsOrRat a.ratingAverage 0).take
    20).map mkMovieResult)

lemma showMapHas_append_left {m l : List (Int × TvShow)} {k : Int}
    (h : showMapHas m k = true) : showMapHas (m ++ l) k = true := by
  rw [showMapHas, List.find?_isSome] at h ⊢
  obtain ⟨e, he, hp⟩ := h
  exact ⟨e, List.mem_append_left _ he, hp⟩

lemma showMapHas_concat_self (m : List (Int × TvShow)) (k : Int) (sh : TvShow) :
    showMapHas (m ++ [(k, sh)]) k = true := by
  rw [showMapHas, List.find?_isSome]
  refine ⟨(k, sh), List.mem_append_right _ ?_, by simp⟩
  simp

lemma showMapHas_false_of_not_mem {m : List (Int × TvShow)} {k : Int}
    (h : ∀ kv ∈ m, kv.1 ≠ k) : showMapHas m k = false := by
  rw [showMapHas]
  cases hf : m.find? fun e => e.1 == k with
  | none => rfl
  | some e =>
      have hm := List.mem_of_find?_eq_some hf
      have hp := List.find?_some hf
      exact absurd (by simpa using hp) (h e hm)

lemma not_mem_of_showMapHas_false {m : List (Int × TvShow)} {k : Int}
    (h : showMapHas m k = false) : ∀ kv ∈ m, kv.1 ≠ k := by
  intro kv hkv he
  rw [showMapHas] at h
  cases hf : m.find? fun e => e.1 == k with
  | none =>
      rw [List.find?_eq_none] at hf
      exact hf kv hkv (by simpa using he)
  | some e => rw [hf] at h; cases h

lemma buildShowMap_go (data : List ScheduleEpisode) :
    ∀ (m : List (Int × TvShow)),
      (∀ kv ∈ m, kv.2.id = kv.1) → ((m.map (·.1)).Nodup) →
      ((data.foldl buildShowMapStep m).map (·.1)).Nodup ∧
      (∀ kv ∈ data.foldl buildShowMapStep m, kv.2.id = kv.1) ∧
      (∀ kv ∈ data.foldl buildShowMapStep m,
        kv ∈ m ∨ (showMapHas m kv.1 = false ∧
          (data.find? fun ep => ep.show_.id == kv.1 && ratingTruthy ep.show_).map
            (·.show_) = some kv.2)) := by
  induction data with
  | nil =>
      intro m hid hnd
      exact ⟨hnd, hid, fun kv hkv => Or.inl hkv⟩
  | cons ep data ih =>
      intro m hid hnd
      rw [List.foldl_cons]
      by_cases hc : (!(showMapHas m ep.show_.id) && ratingTruthy ep.show_) = true
      · have hstep : buildShowMapStep m ep = m ++ [(ep.show_.id, ep.show_)] := by
          rw [buildShowMapStep]
          rw [if_pos hc]
        obtain ⟨hhasb, htru⟩ := Bool.and_eq_true_iff.mp hc
        have hhas : showMapHas m ep.show_.id = false := by
          revert hhasb
          cases showMapHas m ep.show_.id <;> simp
        have hid' : ∀ kv ∈ m ++ [(ep.show_.id, ep.show_)], kv.2.id = kv.1 := by
          intro kv hkv
          rcases List.mem_append.mp hkv with h | h
          · exact hid kv h
          · rw [List.mem_singleton] at h
            subst h
            rfl
        have hnd' : ((m ++ [(ep.show_.id, ep.show_)]).map (·.1)).Nodup := by
          rw [List.map_append, List.nodup_append]
          refine ⟨hnd, by simp, fun x hx hx1 => ?_⟩
          simp only [List.map_cons, List.map_nil, List.mem_singleton] at hx1
          subst hx1
          rw [List.mem_map] at hx
          obtain ⟨kv, hkv, hkv1⟩ := hx
          exact not_mem_of_showMapHas_false hhas kv hkv hkv1
        obtain ⟨h1, h2, h3⟩ := ih (m ++ [(ep.show_.id, ep.show_)]) hid' hnd'
        rw [hstep]
        refine ⟨h1, h2, fun kv hkv => ?_⟩
        rcases h3 kv hkv with hin | ⟨hhas', hfind⟩
        · rcases List.mem_append.mp hin with h | h
          · exact Or.inl h
          · rw [List.mem_singleton] at h
            subst h
            refine Or.inr ⟨hhas, ?_⟩
            show Option.map (fun x => x.show_)
                (List.find?
                  (fun e => e.show_.id == ep.show_.id && ratingTruthy e.show_)
                  (ep :: data))
              = some ep.show_
            rw [@List.find?_cons_of_pos _
              (fun e => e.show_.id == ep.show_.id && ratingTruthy e.show_) ep
              data (by simp [htru]), Option.map_some']
        · have hhasm : showMapHas m kv.1 = false := by
            cases hx : showMapHas m kv.1 with
            | false => rfl
            | true =>
                rw [showMapHas_append_left hx] at hhas'
                cases hhas'
          have hne : ep.show_.id ≠ kv.1 := by
            intro he
            rw [he, showMapHas_concat_self] at hhas'
            cases hhas'
          refine Or.inr ⟨hhasm, ?_⟩
          rw [@List.find?_cons_of_neg _
            (fun e => e.show_.id == kv.1 && ratingTruthy e.show_) ep data
            (by simp [hne]), hfind]
      · have hstep : buildShowMapStep m ep = m := by
          rw [buildShowMapStep]
          rw [if_neg hc]
        obtain ⟨h1, h2, h3⟩ := ih m hid hnd
        rw [hstep]
        refine ⟨h1, h2, fun kv hkv => ?_⟩
        rcases h3 kv hkv with hin | ⟨hhas', hfind⟩
        · exact Or.inl hin
        · refine Or.inr ⟨hhas', ?_⟩
          by_cases he : (ep.show_.id == kv.1 && ratingTruthy ep.show_) = true
          · exfalso
            obtain ⟨heq, htru⟩ := Bool.and_eq_true_iff.mp he
            have hidq : ep.show_.id = kv.1 := by simpa using heq
            have hhasep : showMapHas m ep.show_.id = true := by
              cases hx : showMapHas m ep.show_.id with
              | true => rfl
              | false =>
                  exact absurd (by simp [hx, htru]) hc
            rw [hidq] at hhasep
            rw [hhasep] at hhas'
            cases hhas'
          · rw [@List.find?_cons_of_neg _
              (fun e => e.show_.id == kv.1 && ratingTruthy e.show_) ep data he,
              hfind]

lemma buildShowMap_spec (data : List ScheduleEpisode) :
    ((buildShowMap data).map (·.1)).Nodup ∧
    (∀ kv ∈ buildShowMap data, kv.2.id = kv.1) ∧
    (∀ kv ∈ buildShowMap data,
      (data.find? fun ep => ep.show_.id == kv.1 && ratingTruthy ep.show_).map
        (·.show_) = some kv.2) := by
  obtain ⟨h1, h2, h3⟩ := buildShowMap_go data [] (by simp) (by simp)
  exact ⟨h1, h2, fun kv hkv => ((h3 kv hkv).resolve_left (by simp)).2⟩

lemma jsOrRat_ne_zero {sh : TvShow} (h : ratingTruthy sh = true) :
    jsOrRat sh.ratingAverage 0 ≠ 0 := by
  rw [ratingTruthy] at h
  cases ha : sh.ratingAverage with
  | none => rw [ha] at h; cases h
  | some v =>
      rw [ha] at h
      simp only [Bool.not_eq_true'] at h
      have hv : v ≠ 0 := by simpa using h
      simp [jsOrRat, h, hv]

/-- C6: The trending-movies reshaping produces at most 20 entries, at
most one entry per show id, each entry built from the first episode of the
schedule whose show has that id and a present non-zero rating average
(hence every entry's rating is non-zero), and the list is sorted by
non-increasing rating average. -/
theorem trendingMovies_reshape (data : List ScheduleEpisode) :
    (trendingMoviesResults data).length ≤ 20 ∧
    ((trendingMoviesResults data).map (·.id)).Nodup ∧
    (∀ r ∈ trendingMoviesResults data,
      ∃ ep, (data.find? fun e => e.show_.id == r.id && ratingTruthy e.show_)
          = some ep ∧ r = mkMovieResult ep.show_ ∧ r.vote_average ≠ 0) ∧
    (trendingMoviesResults data).Sorted
      fun x y => y.vote_average ≤ x.vote_average := by
  obtain ⟨hnd, hids, hfind⟩ := buildShowMap_spec data
  have hres : trendingMoviesResults data
      = (((((buildShowMap data).map (·.2)).insertionSort
          fun a b => jsOrRat b.ratingAverage 0 ≤ jsOrRat a.ratingAverage 0).take
        20).map mkMovieResult) := rfl
  haveI htot : IsTotal TvShow
      (fun a b => jsOrRat b.ratingAverage 0 ≤ jsOrRat a.ratingAverage 0) :=
    ⟨fun a b => le_total _ _⟩
  haveI htra : IsTrans TvShow
      (fun a b => jsOrRat b.ratingAverage 0 ≤ jsOrRat a.ratingAverage 0) :=
    ⟨fun a b c hab hbc => le_trans hbc hab⟩
  have hperm : (((buildShowMap data).map (·.2)).insertionSort
      fun a b => jsOrRat b.ratingAverage 0 ≤ jsOrRat a.ratingAverage 0).Perm
      ((buildShowMap data).map (·.2)) := List.perm_insertionSort _ _
  refine ⟨?_, ?_, ?_, ?_⟩
  · rw [hres, List.length_map, List.length_take]
    exact min_le_left _ _
  · rw [hres, List.map_map]
    have hvals : ((buildShowMap data).map (·.2)).map (fun sh : TvShow => sh.id)
        = (buildShowMap data).map (·.1) := by
      rw [List.map_map]
      exact List.map_congr_left fun kv hkv => hids kv hkv
    have hnd2 : ((((buildShowMap data).map (·.2)).insertionSort
        fun a b => jsOrRat b.ratingAverage 0 ≤ jsOrRat a.ratingAverage 0).map
        (fun sh : TvShow => sh.id)).Nodup := by
      refine ((hperm.map (fun sh : TvShow => sh.id)).symm).nodup ?_
      rw [hvals]
      exact hnd
    exact ((List.take_sublist 20 _).map (fun sh : TvShow => sh.id)).nodup hnd2
  · intro r hr
    rw [hres, List.mem_map] at hr
    obtain ⟨sh, hsh, hmk⟩ := hr
    have hsh2 : sh ∈ ((buildShowMap data).map (·.2)).insertionSort
        fun a b => jsOrRat b.ratingAverage 0 ≤ jsOrRat a.ratingAverage 0 :=
      List.mem_of_mem_take hsh
    have hsh3 : sh ∈ (buildShowMap data).map (·.2) := hperm.mem_iff.mp hsh2
    rw [List.mem_map] at hsh3
    obtain ⟨kv, hkv, hkv2⟩ := hsh3
    have hf := hfind kv hkv
    rw [Option.map_eq_some'] at hf
    obtain ⟨ep, hep, hepsh⟩ := hf
    have hrid : r.id = kv.1 := by
      rw [← hmk]
      show sh.id = kv.1
      rw [← hkv2]
      exact hids kv hkv
    have hepsh2 : ep.show_ = sh := by rw [hepsh, hkv2]
    have htru : ratingTruthy ep.show_ = true := by
      have hp := List.find?_some hep
      exact (Bool.and_eq_true_iff.mp hp).2
    refine ⟨ep, ?_, ?_, ?_⟩
    · rw [hrid]
      exact hep
    · rw [hepsh2, ← hmk]
    · rw [← hmk]
      show jsOrRat sh.ratingAverage 0 ≠ 0
      rw [← hepsh2]
      exact jsOrRat_ne_zero htru
  · rw [hres]
    have hsorted : (((buildShowMap data).map (·.2)).insertionSort
        fun a b => jsOrRat b.ratingAverage 0 ≤ jsOrRat a.ratingAverage 0).Sorted
        fun a b => jsOrRat b.ratingAverage 0 ≤ jsOrRat a.ratingAverage 0 :=
      List.sorted_insertionSort _ _
    have htake := List.Pairwise.sublist (List.take_sublist 20 _) hsorted
    exact htake.map mkMovieResult fun a b h => h

/-- A sample rated show for the C6 witness. -/
def sampleShowRated : TvShow :=
  { id := 1, name := "A", summary := none, ratingAverage := some 8,
    imageOriginal := none, premiered := none, genres := [],
    externalsImdb := none }

/-- A sample unrated show for the C6 witness. -/
def sampleShowUnrated : TvShow :=
  { id := 2, name := "B", summary := none, ratingAverage := none,
    imageOriginal := none, premiered := none, genres := [],
    externalsImdb := none }

/-- A sample schedule: an unrated show, then a rated one appearing
twice. -/
def sampleSchedule : List ScheduleEpisode :=
  [⟨sampleShowUnrated⟩, ⟨sampleShowRated⟩, ⟨sampleShowRated⟩]

/-- Witness for C6 at the sample schedule. -/
theorem trendingMovies_reshape_witness :
    mkMovieResult sampleShowRated ∈ trendingMoviesResults sampleSchedule ∧
    ∃ ep, (sampleSchedule.find? fun e =>
        e.show_.id == (mkMovieResult sampleShowRated).id && ratingTruthy e.show_)
        = some ep ∧
      mkMovieResult sampleShowRated = mkMovieResult ep.show_ ∧
      (mkMovieResult sampleShowRated).vote_average ≠ 0 := by
  have hmem : mkMovieResult sampleShowRated ∈ trendingMoviesResults sampleSchedule := by
    decide
  exact ⟨hmem, (trendingMovies_reshape sampleSchedule).2.2.1 _ hmem⟩

/-! ## Student email detection (`src/lib/discount.ts`) -/

/-- JS `str.toLowerCase()` on the character list. -/
def jsToLower (l : List Char) : List Char := l.map Char.toLower

/-- Source: `domain.endsWith(pattern)`. -/
def jsEndsWith (l suffixChars : List Char) : Bool := suffixChars.isSuffixOf l

/-- Source: `/\.edu\.[a-z]{2,3}$/.test(domain)`: at some position of the domain,
`.edu.` is followed by exactly 2 or 3 lowercase ASCII letters reaching the
end of the string. -/
def eduCountryTest (domain : List Char) : Bool :=
  domain.tails.any fun t =>
    ".edu.".data.isPrefixOf t &&
      (let cc := t.drop 5
       (cc.length == 2 || cc.length == 3) &&
         cc.all fun ch => 'a' ≤ ch && ch ≤ 'z')

/-- Source: `export function isStudentEmail(email, studentDomains)`. -/
def isStudentEmail (email : String) (studentDomains : List String) : Bool :=
  if email.data.isEmpty then false
  else if studentDomains.isEmpty then false
  else
    let lowerEmail := jsToLower email.data
    let emailParts := jsSplit '@' lowerEmail
    if emailParts.length ≠ 2 then false
    else
      let domain := (emailParts[1]?).getD []
      studentDomains.any fun pattern =>
        let lowerPattern := jsToLower pattern.data
        if lowerPattern == ".edu".data then
          jsEndsWith domain ".edu".data || eduCountryTest domain
        else
          jsEndsWith domain lowerPattern

lemma eduCountryTest_iff (domain : List Char) :
    eduCountryTest domain = true ↔
      ∃ cc : List Char, (".edu.".data ++ cc) <:+ domain ∧
        (cc.length = 2 ∨ cc.length = 3) ∧
        ∀ ch ∈ cc, 'a' ≤ ch ∧ ch ≤ 'z' := by
  rw [eduCountryTest, List.any_eq_true]
  constructor
  · rintro ⟨t, ht, hp⟩
    rw [List.mem_tails] at ht
    obtain ⟨hpre, hrest⟩ := Bool.and_eq_true_iff.mp hp
    rw [ List.isPrefixOf_iff_prefix] at hpre
    obtain ⟨tail, htail⟩ := hpre
    refine ⟨t.drop 5, ?_, ?_, ?_⟩
    · have : ".edu.".data ++ t.drop 5 = t := by
        rw [← htail]
        have h5 : (".edu.".data).length = 5 := by decide
        rw [← h5, List.drop_left]
      rw [this]
      exact ht
    · obtain ⟨hlen, -⟩ := Bool.and_eq_true_iff.mp hrest
      rcases Bool.or_eq_true_iff.mp hlen with h | h
      · exact Or.inl (by simpa using h)
      · exact Or.inr (by simpa using h)
    · obtain ⟨-, hall⟩ := Bool.and_eq_true_iff.mp hrest
      rw [List.all_eq_true] at hall
      intro ch hch
      have := hall ch hch
      exact ⟨by simpa using (Bool.and_eq_true_iff.mp this).1,
        by simpa using (Bool.and_eq_true_iff.mp this).2⟩
  · rintro ⟨cc, hsuf, hlen, hall⟩
    refine ⟨".edu.".data ++ cc, ?_, ?_⟩
    · rw [List.mem_tails]
      exact hsuf
    · have hdrop : (".edu.".data ++ cc).drop 5 = cc := by
        have h5 : (".edu.".data).length = 5 := by decide
        rw [← h5, List.drop_left]
      rw [Bool.and_eq_true_iff]
      refine ⟨ List.isPrefixOf_iff_prefix.mpr ⟨cc, rfl⟩, ?_⟩
      rw [hdrop, Bool.and_eq_true_iff]
      constructor
      · rcases hlen with h | h <;> simp [h]
      · rw [List.all_eq_true]
        intro ch hch
        obtain ⟨h1, h2⟩ := hall ch hch
        simp [h1, h2]

lemma studentPatternMatch_iff (domain : List Char) (p : String) :
    (if jsToLower p.data == ".edu".data then
        jsEndsWith domain ".edu".data || eduCountryTest domain
      else jsEndsWith domain (jsToLower p.data)) = true ↔
    (if jsToLower p.data = ".edu".data then
        (".edu".data <:+ domain ∨
          ∃ cc : List Char, (".edu.".data ++ cc) <:+ domain ∧
            (cc.length = 2 ∨ cc.length = 3) ∧ ∀ ch ∈ cc, 'a' ≤ ch ∧ ch ≤ 'z')
      else jsToLower p.data <:+ domain) := by
  by_cases h : jsToLower p.data = ".edu".data
  · simp [h, jsEndsWith, List.isSuffixOf_iff_suffix, eduCountryTest_iff]
  · simp [h, jsEndsWith, List.isSuffixOf_iff_suffix]

lemma isStudentEmail_eq (email : String) (ds : List String) :
    isStudentEmail email ds
      = if email.data.isEmpty then false
        else if ds.isEmpty then false
        else if (jsSplit '@' (jsToLower email.data)).length ≠ 2 then false
        else ds.any fun pattern =>
          if jsToLower pattern.data == ".edu".data then
            jsEndsWith (((jsSplit '@' (jsToLower email.data))[1]?).getD [])
              ".edu".data ||
              eduCountryTest (((jsSplit '@' (jsToLower email.data))[1]?).getD [])
          else
            jsEndsWith (((jsSplit '@' (jsToLower email.data))[1]?).getD [])
              (jsToLower pattern.data) := rfl

/-- C9: `isStudentEmail` returns `false` when the lowercased email does
not split on `@` into exactly two parts or the domain list is empty;
otherwise it is case-insensitive suffix matching of each pattern against
the domain part, except that the pattern `.edu` additionally matches any
domain ending in `.edu.` followed by a 2-to-3-letter country code. -/
theorem isStudentEmail_spec :
    (∀ (email : String) (ds : List String),
      (jsSplit '@' (jsToLower email.data)).length ≠ 2 →
        isStudentEmail email ds = false) ∧
    (∀ email : String, isStudentEmail email [] = false) ∧
    (∀ (email : String) (ds : List String) (localPart domain : List Char),
      jsSplit '@' (jsToLower email.data) = [localPart, domain] →
      (isStudentEmail email ds = true ↔
        ∃ p ∈ ds,
          if jsToLower p.data = ".edu".data then
            (".edu".data <:+ domain ∨
              ∃ cc : List Char, (".edu.".data ++ cc) <:+ domain ∧
                (cc.length = 2 ∨ cc.length = 3) ∧
                ∀ ch ∈ cc, 'a' ≤ ch ∧ ch ≤ 'z')
          else jsToLower p.data <:+ domain)) := by
  refine ⟨fun email ds hlen => ?_, fun email => ?_,
    fun email ds localPart domain hsplit => ?_⟩
  · rw [isStudentEmail_eq]
    by_cases h1 : email.data.isEmpty
    · simp [h1]
    · by_cases h2 : ds.isEmpty
      · simp [h1, h2]
      · simp [h1, h2, hlen]
  · rw [isStudentEmail_eq]
    split_ifs <;> rfl
  · have hne : email.data.isEmpty = false := by
      cases hema : email.data with
      | nil =>
          rw [hema] at hsplit
          simp [jsToLower, jsSplit] at hsplit
      | cons c cs => rfl
    have heval : isStudentEmail email ds
        = ds.any fun pattern =>
            if jsToLower pattern.data == ".edu".data then
              jsEndsWith domain ".edu".data || eduCountryTest domain
            else jsEndsWith domain (jsToLower pattern.data) := by
      cases ds with
      | nil => simp [isStudentEmail_eq, hne]
      | cons d ds' =>
          rw [isStudentEmail_eq, hsplit]
          simp [hne]
    rw [heval, List.any_eq_true]
    constructor
    · rintro ⟨p, hp, hmatch⟩
      exact ⟨p, hp, (studentPatternMatch_iff domain p).mp hmatch⟩
    · rintro ⟨p, hp, hmatch⟩
      exact ⟨p, hp, (studentPatternMatch_iff domain p).mpr hmatch⟩

/-- Witness for C9: a mixed-case `.edu.in` address against the `.edu`
pattern. -/
theorem isStudentEmail_spec_witness :
    jsSplit '@' (jsToLower "Student@Uni.EDU.in".data)
      = ["student".data, "uni.edu.in".data] ∧
    (isStudentEmail "Student@Uni.EDU.in" [".edu"] = true ↔
      ∃ p ∈ [".edu"],
        if jsToLower p.data = ".edu".data then
          (".edu".data <:+ "uni.edu.in".data ∨
            ∃ cc : List Char, (".edu.".data ++ cc) <:+ "uni.edu.in".data ∧
              (cc.length = 2 ∨ cc.length = 3) ∧ ∀ ch ∈ cc, 'a' ≤ ch ∧ ch ≤ 'z')
        else jsToLower p.data <:+ "uni.edu.in".data) ∧
    isStudentEmail "Student@Uni.EDU.in" [".edu"] = true :=
  ⟨by decide,
   isStudentEmail_spec.2.2 "Student@Uni.EDU.in" [".edu"] "student".data
     "uni.edu.in".data (by decide),
   by decide⟩
